import Mathlib

/-!
Verification of the job orchestration and confidence-bucketing engine of the
SAM-3 batch classifier backend.

Scores, box coordinates and thresholds are modelled as exact rationals (`ℚ`);
database ids and image pixel dimensions as `Nat` / `Int`.  External
collaborators (the neural detection backend, the HTTP layer, the file system)
are abstracted away exactly where the source treats them as opaque calls.
-/

namespace Spec2Proof

/-- One confidence band, from `buckets.py` (`BucketDefinition`). -/
structure BucketDefinition where
  name : String
  min_score : ℚ
  max_score : ℚ
deriving DecidableEq

/-- `BUCKET_MAX = 0.9`, from `buckets.py`. -/
def BUCKET_MAX : ℚ := 9 / 10

/-- `build_buckets` from `buckets.py` lines 24-34: splits `[user_confidence, 0.9]`
into three equal bands below the fixed `max` band `[0.9, 1.0]`. -/
def build_buckets (user_confidence : ℚ) : List BucketDefinition :=
  let diff := BUCKET_MAX - user_confidence
  let step := if diff > 0 then diff / 3 else 0
  let b1 := BUCKET_MAX - step
  let b2 := BUCKET_MAX - 2 * step
  [ ⟨"max", BUCKET_MAX, 1⟩,
    ⟨"b1", b1, BUCKET_MAX⟩,
    ⟨"b2", b2, b1⟩,
    ⟨"min", user_confidence, b2⟩ ]

/-- `select_bucket` from `buckets.py` lines 37-41: first band whose inclusive
range contains the score, scanning in list order. -/
def select_bucket (score : ℚ) : List BucketDefinition → Option String
  | [] => none
  | b :: rest =>
      if b.min_score ≤ score ∧ score ≤ b.max_score then some b.name
      else select_bucket score rest

/-- A corner-form bounding box `[x0, y0, x1, y1]`. -/
structure BoxXYXY where
  x0 : ℚ
  y0 : ℚ
  x1 : ℚ
  y1 : ℚ
deriving DecidableEq

/-- `Sam3Region` from `sam3_methods.py`: one detection returned by a runner.
The pixel mask is modelled by its positive-pixel area (`mask.sum()`), the only
attribute the persistence code inspects; `none` = no mask returned. -/
structure Detection where
  bbox_xyxy : BoxXYXY
  score : ℚ
  mask : Option Nat
deriving DecidableEq

/-- The descending-score comparison realised by
`detections.sort(key=lambda det: det.score, reverse=True)` in
`jobs/manager.py` line 317. -/
def score_ge (a b : Detection) : Prop := b.score ≤ a.score

instance : DecidableRel score_ge :=
  fun a b => inferInstanceAs (Decidable (b.score ≤ a.score))

instance : IsTotal Detection score_ge :=
  ⟨fun a b => le_total b.score a.score⟩

instance : IsTrans Detection score_ge :=
  ⟨fun _ _ _ hab hbc => le_trans hbc hab⟩

/-- Python list slicing `l[:m]` for an arbitrary `int` bound `m`
(a negative bound counts from the end of the list). -/
def pySliceTo (m : Int) (l : List Detection) : List Detection :=
  if 0 ≤ m then l.take m.toNat else l.take ((l.length : Int) + m).toNat

/-- Lines 317-319 of `jobs/manager.py`: sort one concept's detections by score
descending (Python's sort is stable; so is insertion sort with `score_ge`),
then, when `max_detections` is truthy (nonzero), keep only the first
`max_detections` of them. -/
def truncate_detections (max_detections : Int) (dets : List Detection) :
    List Detection :=
  let sorted := List.insertionSort score_ge dets
  if max_detections ≠ 0 then pySliceTo max_detections sorted else sorted

/-- Lines 134-139 of `jobs/manager.py`: the per-image detection cap defaults
to 20 in safe mode and 100 otherwise, but only when the request parameter is
absent (`None`). -/
def resolve_max_detections (safe_mode : Bool) (max_detections_param : Option Int) :
    Int :=
  match max_detections_param with
  | some v => v
  | none => if safe_mode then 20 else 100

/-- A persisted `Region` row (`core/models.py`): the bbox is stored as the
JSON list `[x, y, w, h]`; `mask_written` records whether a mask raster was
written for it (`mask_ref` set, manager lines 339-345 / 365-373). -/
structure Region where
  image_id : Nat
  concept_id : Option Nat
  bbox : List ℚ
  score : ℚ
  mask_written : Bool
  is_demo : Bool
deriving DecidableEq

/-- The job parameters read in `JobManager._run_job` that drive per-image
persistence (`jobs/manager.py` lines 130-160). -/
structure JobParams where
  max_detections : Int
  return_boxes : Bool
  return_masks : Bool
  demo_mode : Bool
  demo_overlays_enabled : Bool
  demo_count_per_image : Int
  demo_include_masks : Bool

/-- Lines 322-345 of `jobs/manager.py`: one kept detection becomes one
`Region` row; the corner box is converted to `[x, y, w, h]` with negative
extents clamped to 0, unless `return_boxes` is off, in which case the zero
rectangle is stored; a mask raster is written when requested and present. -/
def region_of_detection (return_boxes return_masks : Bool)
    (image_id concept_id : Nat) (det : Detection) : Region :=
  let b := det.bbox_xyxy
  { image_id := image_id
    concept_id := some concept_id
    bbox :=
      if return_boxes then [b.x0, b.y0, max 0 (b.x1 - b.x0), max 0 (b.y1 - b.y0)]
      else [0, 0, 0, 0]
    score := det.score
    mask_written := return_masks && det.mask.isSome
    is_demo := false }

/-- `build_demo_boxes` from `jobs/manager.py` lines 28-48: grid layout of
`count` placeholder boxes, at most 3 columns, 6% margins, each box 65% of its
cell's width and 60% of its cell's height, centred in the cell.  Python's
`count / cols` is exact division fed to `math.ceil`; `idx // cols` and
`idx % cols` on nonnegative ints coincide with `Int` division. -/
def build_demo_boxes (width height count : Int) : List BoxXYXY :=
  if count ≤ 0 ∨ width ≤ 0 ∨ height ≤ 0 then []
  else
    let cols : Int := min 3 (max 1 count)
    let rows : Int := ⌈(count : ℚ) / (cols : ℚ)⌉
    let margin_x : ℚ := (width : ℚ) * (6/100)
    let margin_y : ℚ := (height : ℚ) * (6/100)
    let cell_width : ℚ := ((width : ℚ) - 2 * margin_x) / (cols : ℚ)
    let cell_height : ℚ := ((height : ℚ) - 2 * margin_y) / (rows : ℚ)
    let box_width : ℚ := cell_width * (65/100)
    let box_height : ℚ := cell_height * (60/100)
    (List.range count.toNat).map fun idx =>
      let row : Int := (idx : Int) / cols
      let col : Int := (idx : Int) % cols
      let x0 : ℚ := margin_x + (col : ℚ) * cell_width + (cell_width - box_width) / 2
      let y0 : ℚ := margin_y + (row : ℚ) * cell_height + (cell_height - box_height) / 2
      ⟨x0, y0, x0 + box_width, y0 + box_height⟩

/-- One dataset image as seen by the job loop: its id, pixel dimensions,
whether `load_image` succeeds on it, and — abstracting the neural backend —
the detections the dispatcher yields per concept, in concept order (`none`
models an inference call that raises, manager line 311). -/
structure SrcImage where
  id : Nat
  width : Int
  height : Int
  load_ok : Bool
  concept_results : List (Nat × Option (List Detection))

/-- Lines 348-374 of `jobs/manager.py`: demo overlay regions for one image,
attributed to the first concept of the job (if any), score 0, `is_demo`. -/
def demo_regions (p : JobParams) (img : SrcImage) : List Region :=
  let demo_concept_id := (img.concept_results.head?).map Prod.fst
  (build_demo_boxes img.width img.height p.demo_count_per_image).map fun b =>
    { image_id := img.id
      concept_id := demo_concept_id
      bbox := [b.x0, b.y0, max 0 (b.x1 - b.x0), max 0 (b.y1 - b.y0)]
      score := 0
      mask_written := p.return_masks && p.demo_include_masks
      is_demo := true }

/-- Persistence of one concept's detections for one image
(`jobs/manager.py` lines 232-346): an inference error contributes no rows;
otherwise the sorted, truncated detections each become one `Region` row. -/
def concept_regions (p : JobParams) (image_id : Nat)
    (cr : Nat × Option (List Detection)) : List Region :=
  match cr.2 with
  | none => []
  | some dets =>
      (truncate_detections p.max_detections dets).map
        (region_of_detection p.return_boxes p.return_masks image_id cr.1)

/-- All `Region` rows committed for one image: real detections per concept,
then demo overlays when demo mode is on and no real detection was kept
(`jobs/manager.py` lines 231-374; `image_real_detections` counts exactly the
kept detections, one region each). -/
def process_image (p : JobParams) (img : SrcImage) : List Region :=
  let real := (img.concept_results.map (concept_regions p img.id)).flatten
  if p.demo_mode && p.demo_overlays_enabled && real.length == 0 then
    real ++ demo_regions p img
  else real

/-- The job-lifecycle state the loop persists. -/
structure JobState where
  status : String
  processed_images : Nat
  cursor_image_id : Option Nat
  regions : List Region

/-- One full iteration of the image loop after the cancellation check
(`jobs/manager.py` lines 219-378): delete any previous regions of this image
(idempotent prep), then, if the image loads, commit its regions, bump
`processed_images` and advance the cursor to `id + 1`; a load failure marks
the image and moves on, leaving cursor and counter untouched. -/
def step_image (p : JobParams) (st : JobState) (img : SrcImage) : JobState :=
  let cleaned := st.regions.filter (fun r => r.image_id ≠ img.id)
  if img.load_ok then
    { st with
        regions := cleaned ++ process_image p img
        processed_images := st.processed_images + 1
        cursor_image_id := some (img.id + 1) }
  else { st with regions := cleaned }

/-- The image loop: at the top of each iteration the cancellation token is
polled (`k` counts iterations of this run); if it is set the job is committed
as `cancelled` and nothing of this or any later iteration happens; when the
images are exhausted the job completes. -/
def run_images (p : JobParams) (cancelled : Nat → Bool) :
    List SrcImage → Nat → JobState → JobState
  | [], _, st => { st with status := "completed" }
  | img :: rest, k, st =>
      if cancelled k then { st with status := "cancelled" }
      else run_images p cancelled rest (k + 1) (step_image p st img)

/-- The cursor value dictated by the last successfully loaded image of a run
prefix, falling back to the initial cursor. -/
def last_ok_cursor (init : Option Nat) (imgs : List SrcImage) : Option Nat :=
  match (imgs.filter (fun i => i.load_ok)).getLast? with
  | some i => some (i.id + 1)
  | none => init

/-- Two corner-form boxes overlap when their interiors intersect. -/
def boxes_overlap (a b : BoxXYXY) : Prop :=
  max a.x0 b.x0 < min a.x1 b.x1 ∧ max a.y0 b.y0 < min a.y1 b.y1

instance (a b : BoxXYXY) : Decidable (boxes_overlap a b) := by
  unfold boxes_overlap
  infer_instance

/-- The post-processed model output the PCS runners filter: parallel `boxes`
and `scores` lists plus an optional list of masks (each modelled by its
positive-pixel area, the only attribute read). -/
structure RawResult where
  boxes : List BoxXYXY
  scores : List ℚ
  masks : Option (List Nat)

/-- `Sam3Debug` from `sam3_methods.py` lines 25-32, restricted to the fields
that do not depend on live tensors. -/
structure Sam3Debug where
  used_threshold : ℚ
  candidate_count : Nat
  filtered_count : Nat
deriving DecidableEq

/-- The indexed walk of `_regions_from_results` (`sam3_methods.py` lines
84-105): pair boxes with scores, drop scores below the threshold, attach
`masks[idx]` when present, and drop masked detections whose area is below a
truthy `min_area_pixels`. -/
def regions_from_results_aux (masks : Option (List Nat))
    (confidence_threshold : ℚ) (min_area_pixels : Nat) :
    Nat → List BoxXYXY → List ℚ → List Detection
  | _, [], _ => []
  | _, _ :: _, [] => []
  | idx, box :: bs, score :: ss =>
      let rest := regions_from_results_aux masks confidence_threshold
        min_area_pixels (idx + 1) bs ss
      if score < confidence_threshold then rest
      else
        match masks with
        | some ms =>
            if h : idx < ms.length then
              if min_area_pixels ≠ 0 ∧ ms[idx] < min_area_pixels then rest
              else ⟨box, score, some ms[idx]⟩ :: rest
            else ⟨box, score, none⟩ :: rest
        | none => ⟨box, score, none⟩ :: rest

/-- `_regions_from_results` from `sam3_methods.py` lines 84-105. -/
def regions_from_results (results : RawResult) (confidence_threshold : ℚ)
    (min_area_pixels : Nat) : List Detection :=
  regions_from_results_aux results.masks confidence_threshold min_area_pixels 0
    results.boxes results.scores

/-- `run_pcs_text` from `sam3_methods.py` lines 108-141, with the external
processor/model call pair abstracted as `post : threshold → RawResult` (the
code re-runs `_post_process_instances` on the same `outputs` at the threshold
it is given).  If filtering at the requested threshold leaves nothing and the
request exceeds 0.3, the identical call is retried once at 0.3, and
`used_threshold` records the threshold that produced the returned set. -/
def run_pcs_text (post : ℚ → RawResult) (confidence_threshold : ℚ)
    (min_area_pixels : Nat) : List Detection × Sam3Debug :=
  let results := post confidence_threshold
  let regions := regions_from_results results confidence_threshold min_area_pixels
  if regions = [] ∧ confidence_threshold > 3/10 then
    let results2 := post (3/10)
    let regions2 := regions_from_results results2 (3/10) min_area_pixels
    (regions2, ⟨3/10, results2.boxes.length, regions2.length⟩)
  else
    (regions, ⟨confidence_threshold, results.boxes.length, regions.length⟩)

/-- `run_pcs_box` from `sam3_methods.py` lines 144-184: identical fallback
logic to `run_pcs_text` (the prompt inputs only shape `post`). -/
def run_pcs_box (post : ℚ → RawResult) (confidence_threshold : ℚ)
    (min_area_pixels : Nat) : List Detection × Sam3Debug :=
  let results := post confidence_threshold
  let regions := regions_from_results results confidence_threshold min_area_pixels
  if regions = [] ∧ confidence_threshold > 3/10 then
    let results2 := post (3/10)
    let regions2 := regions_from_results results2 (3/10) min_area_pixels
    (regions2, ⟨3/10, results2.boxes.length, regions2.length⟩)
  else
    (regions, ⟨confidence_threshold, results.boxes.length, regions.length⟩)

/-- `run_pcs_combined` from `sam3_methods.py` lines 187-229: identical
fallback logic to `run_pcs_text`. -/
def run_pcs_combined (post : ℚ → RawResult) (confidence_threshold : ℚ)
    (min_area_pixels : Nat) : List Detection × Sam3Debug :=
  let results := post confidence_threshold
  let regions := regions_from_results results confidence_threshold min_area_pixels
  if regions = [] ∧ confidence_threshold > 3/10 then
    let results2 := post (3/10)
    let regions2 := regions_from_results results2 (3/10) min_area_pixels
    (regions2, ⟨3/10, results2.boxes.length, regions2.length⟩)
  else
    (regions, ⟨confidence_threshold, results.boxes.length, regions.length⟩)

/-- One item of the `mask-generation` pipeline output consumed by
`run_auto_mask` (`sam3_methods.py` lines 256-275): a score (the pipeline
defaults it to 1.0) and an optional mask, modelled by its positive-pixel area
together with the tight bounding box the code derives from it. -/
structure AutoItem where
  score : ℚ
  mask : Option (Nat × BoxXYXY)

/-- `run_auto_mask` from `sam3_methods.py` lines 244-283: filter the pipeline
items by score, mask presence, truthy minimum area and non-emptiness; there
is NO threshold-relaxation retry here, and `used_threshold` is always the
requested threshold. -/
def run_auto_mask (pipeline_results : List AutoItem) (confidence_threshold : ℚ)
    (min_area_pixels : Nat) : List Detection × Sam3Debug :=
  let regions := pipeline_results.filterMap fun item =>
    if item.score < confidence_threshold then none
    else
      match item.mask with
      | none => none
      | some (area, bbox) =>
          if min_area_pixels ≠ 0 ∧ area < min_area_pixels then none
          else if area = 0 then none
          else some ⟨bbox, item.score, some area⟩
  (regions, ⟨confidence_threshold, pipeline_results.length, regions.length⟩)

/-- An `images` table row (only the columns `create_job` consults). -/
structure ImageRow where
  id : Nat
  dataset_id : Nat
deriving DecidableEq

/-- A `jobs` table row as `create_job` builds it. -/
structure JobRow where
  job_type : String
  dataset_id : Nat
  status : String
  processed_images : Nat
  total_images : Nat
deriving DecidableEq

/-- The database state `create_job` reads and writes. -/
structure Db where
  images : List ImageRow
  concepts : List Nat
  jobs : List JobRow
deriving DecidableEq

/-- `create_job` from `api/jobs.py` lines 57-85 (with the job manager
configured): the dataset's indexed images are counted first; a zero count
raises HTTP 400 before any `Job` row is constructed or added; then every
requested concept id must exist; only then is the pending `Job` row added and
committed. -/
def create_job (db : Db) (dataset_id : Nat) (concept_ids : List Nat) :
    Except (Nat × String) (Db × JobRow) :=
  let dataset_images :=
    (db.images.filter (fun i => i.dataset_id == dataset_id)).length
  if dataset_images = 0 then
    Except.error (400, "Dataset has no images or does not exist")
  else
    match concept_ids.find? (fun cid => !(db.concepts.contains cid)) with
    | some _ => Except.error (400, "Concept not found")
    | none =>
        let job : JobRow := ⟨"level1", dataset_id, "pending", 0, dataset_images⟩
        Except.ok ({ db with jobs := db.jobs ++ [job] }, job)

/-! ### Claim theorems and supporting lemmas -/

/-- The `max` band is matched first, so `select_bucket` answers `max` exactly
on `[0.9, 1]`, for every floor. -/
theorem select_bucket_max_iff (c s : ℚ) :
    select_bucket s (build_buckets c) = some "max" ↔ (9/10 ≤ s ∧ s ≤ 1) := by
  simp only [build_buckets, BUCKET_MAX, select_bucket]
  split_ifs with h1 h2 h3 h4 <;> simp_all

/-- For floors `c ≤ 0.9`, every score in `[c, 1]` falls in some band. -/
theorem select_bucket_total (c : ℚ) (hc9 : c ≤ 9/10) (s : ℚ)
    (hcs : c ≤ s) (hs1 : s ≤ 1) :
    ∃ n, select_bucket s (build_buckets c) = some n := by
  by_cases h9 : 9/10 ≤ s
  · exact ⟨"max", (select_bucket_max_iff c s).mpr ⟨h9, hs1⟩⟩
  · push_neg at h9
    have hd : BUCKET_MAX - c > 0 ∨ BUCKET_MAX - c = 0 := by
      rcases lt_or_eq_of_le (show c ≤ BUCKET_MAX by simpa [BUCKET_MAX] using hc9) with h | h
      · exact Or.inl (by linarith)
      · exact Or.inr (by linarith)
    rcases hd with hd | hd
    · -- positive step: the three lower bands tile [c, 0.9]
      simp only [build_buckets, BUCKET_MAX, select_bucket] at *
      rw [if_pos hd]
      split_ifs with h1 h2 h3 h4
      · exact ⟨"max", rfl⟩
      · exact ⟨"b1", rfl⟩
      · exact ⟨"b2", rfl⟩
      · exact ⟨"min", rfl⟩
      · exfalso
        push_neg at h2 h3 h4
        by_cases hb1 : 9/10 - (9/10 - c) / 3 ≤ s
        · exact absurd (h2 hb1) (by linarith)
        · push_neg at hb1
          by_cases hb2 : 9/10 - 2 * ((9/10 - c) / 3) ≤ s
          · exact absurd (h3 hb2) (by linarith)
          · push_neg at hb2
            exact absurd (h4 hcs) (by linarith)
    · -- degenerate step: c = 0.9 and s ≥ c contradicts s < 0.9
      exfalso
      have : c = 9/10 := by simp only [BUCKET_MAX] at hd; linarith
      linarith [hcs, this ▸ hcs]

/-- C1: for every confidence floor `c ∈ [0, 0.9]`, the four buckets of
`build_buckets c`, classified by the first-match scan of `select_bucket`,
cover all of `[c, 1]` (so, being classified by a function, every such score
is assigned to exactly one bucket), and the bucket named `max` is assigned
exactly on `[0.9, 1]`. -/
theorem buckets_partition (c : ℚ) (hc0 : 0 ≤ c) (hc9 : c ≤ 9/10) (s : ℚ) :
    (c ≤ s → s ≤ 1 → ∃ n, select_bucket s (build_buckets c) = some n) ∧
    (select_bucket s (build_buckets c) = some "max" ↔ (9/10 ≤ s ∧ s ≤ 1)) :=
  ⟨fun hcs hs1 => select_bucket_total c hc9 s hcs hs1, select_bucket_max_iff c s⟩

/-- Closed witness for `buckets_partition` at `c = 1/2`, `s = 4/5`. -/
theorem buckets_partition_witness :
    (0:ℚ) ≤ 1/2 ∧ (1/2:ℚ) ≤ 9/10 ∧
      ((1/2 ≤ (4/5:ℚ) → (4/5:ℚ) ≤ 1 →
          ∃ n, select_bucket (4/5) (build_buckets (1/2)) = some n) ∧
        (select_bucket (4/5) (build_buckets (1/2)) = some "max" ↔
          (9/10 ≤ (4/5:ℚ) ∧ (4/5:ℚ) ≤ 1))) :=
  ⟨by norm_num, by norm_num,
    buckets_partition (1/2) (by norm_num) (by norm_num) (4/5)⟩

/-- C2 counterexample: with floor `c = 0.95 ∈ [0, 1]` the score `0.92 < c`
is NOT unclassified — the first-match scan assigns it to `max`. -/
theorem sub_floor_classified_counterexample :
    (23/25 : ℚ) < 19/20 ∧
      select_bucket (23/25) (build_buckets (19/20)) = some "max" := by
  constructor
  · norm_num
  · simp only [build_buckets, BUCKET_MAX, select_bucket]
    norm_num

/-- C2 amended: for floors `c ∈ [0, 0.9]` every score strictly below `c` is
unclassified (`select_bucket` returns `none`); and for every floor
`c ∈ [0, 1]` classification is total on `[c, 1]` (a bucket name is always
returned; determinism holds because `select_bucket` is a function). -/
theorem sub_floor_unclassified_amended (c : ℚ) (hc0 : 0 ≤ c) (hc1 : c ≤ 1) :
    (c ≤ 9/10 → ∀ s : ℚ, s < c → select_bucket s (build_buckets c) = none) ∧
    (∀ s : ℚ, c ≤ s → s ≤ 1 →
      ∃ n, select_bucket s (build_buckets c) = some n) := by
  constructor
  · intro hc9 s hs
    simp only [build_buckets, BUCKET_MAX, select_bucket]
    split_ifs with h1 h2 h3 h4 h5 h6 h7 <;> try rfl
    all_goals exfalso
    all_goals casesm* _ ∧ _
    all_goals linarith
  · intro s hcs hs1
    by_cases hc9 : c ≤ 9/10
    · exact select_bucket_total c hc9 s hcs hs1
    · push_neg at hc9
      refine ⟨"max", ?_⟩
      have h9s : 9/10 ≤ s := le_trans (le_of_lt hc9) hcs
      simp only [build_buckets, BUCKET_MAX, select_bucket]
      rw [if_pos ⟨h9s, hs1⟩]

/-- Closed witness for `sub_floor_unclassified_amended` at `c = 1/2`,
exercised at the sub-floor score `1/4` and the in-range score `3/4`. -/
theorem sub_floor_unclassified_amended_witness :
    (0:ℚ) ≤ 1/2 ∧ (1/2:ℚ) ≤ 1 ∧
      (select_bucket (1/4) (build_buckets (1/2)) = none ∧
        ∃ n, select_bucket (3/4) (build_buckets (1/2)) = some n) :=
  ⟨by norm_num, by norm_num,
    (sub_floor_unclassified_amended (1/2) (by norm_num) (by norm_num)).1
        (by norm_num) (1/4) (by norm_num),
    (sub_floor_unclassified_amended (1/2) (by norm_num) (by norm_num)).2
        (3/4) (by norm_num) (by norm_num)⟩

/-- C3 counterexample: with `maxDetectionsPerImage = 1` and two concepts each
yielding one detection, the loop persists TWO non-demo regions for the one
image — the cap is applied per concept, not per image in total. -/
theorem per_image_cap_counterexample :
    ((process_image
        ⟨1, true, true, false, false, 3, true⟩
        ⟨5, 100, 100, true,
          [(1, some [⟨⟨0, 0, 1, 1⟩, 1/2, none⟩]),
           (2, some [⟨⟨0, 0, 2, 2⟩, 1/2, none⟩])]⟩).filter
      (fun r => !r.is_demo)).length = 2 := by
  decide

/-- C3 amended: the cap applies per (image, concept): for every concept whose
inference succeeded, the persisted rows for that concept on that image are
sorted by score descending, there are at most `max_detections` of them when
the cap is positive, and the detections dropped by the cap score no higher
than any kept one. -/
theorem per_concept_truncation (p : JobParams) (hm : 0 < p.max_detections)
    (iid cid : Nat) (dets : List Detection) :
    (concept_regions p iid (cid, some dets)).length ≤ p.max_detections.toNat ∧
    List.Sorted (fun r s : Region => s.score ≤ r.score)
      (concept_regions p iid (cid, some dets)) ∧
    (∀ a ∈ truncate_detections p.max_detections dets,
      ∀ b ∈ (List.insertionSort score_ge dets).drop p.max_detections.toNat,
        b.score ≤ a.score) := by
  have hne : p.max_detections ≠ 0 := ne_of_gt hm
  have h0 : 0 ≤ p.max_detections := le_of_lt hm
  have htr : truncate_detections p.max_detections dets =
      (List.insertionSort score_ge dets).take p.max_detections.toNat := by
    simp [truncate_detections, pySliceTo, hne, h0]
  have hsorted := List.sorted_insertionSort score_ge dets
  have hsplit : List.Pairwise score_ge
      ((List.insertionSort score_ge dets).take p.max_detections.toNat ++
        (List.insertionSort score_ge dets).drop p.max_detections.toNat) := by
    rw [List.take_append_drop]
    exact hsorted
  refine ⟨?_, ?_, ?_⟩
  · simp only [concept_regions, List.length_map, htr]
    exact List.length_take_le _ _
  · simp only [concept_regions, List.Sorted, List.pairwise_map]
    have hs : List.Pairwise score_ge (truncate_detections p.max_detections dets) := by
      rw [htr]
      exact List.Pairwise.sublist (List.take_sublist _ _) hsorted
    exact hs.imp (fun {a b} hab => hab)
  · intro a ha b hb
    rw [htr] at ha
    exact (List.pairwise_append.mp hsplit).2.2 a ha b hb

/-- Closed witness for `per_concept_truncation`: cap 2 on three detections. -/
theorem per_concept_truncation_witness :
    (0:Int) < 2 ∧
      ((concept_regions ⟨2, true, true, false, false, 3, true⟩ 7
          (1, some [⟨⟨0, 0, 1, 1⟩, 1/4, none⟩, ⟨⟨0, 0, 1, 1⟩, 3/4, none⟩,
            ⟨⟨0, 0, 1, 1⟩, 1/2, none⟩])).length ≤ (2:Int).toNat ∧
        List.Sorted (fun r s : Region => s.score ≤ r.score)
          (concept_regions ⟨2, true, true, false, false, 3, true⟩ 7
            (1, some [⟨⟨0, 0, 1, 1⟩, 1/4, none⟩, ⟨⟨0, 0, 1, 1⟩, 3/4, none⟩,
              ⟨⟨0, 0, 1, 1⟩, 1/2, none⟩])) ∧
        (∀ a ∈ truncate_detections 2 [⟨⟨0, 0, 1, 1⟩, 1/4, none⟩,
            ⟨⟨0, 0, 1, 1⟩, 3/4, none⟩, ⟨⟨0, 0, 1, 1⟩, 1/2, none⟩],
          ∀ b ∈ (List.insertionSort score_ge [⟨⟨0, 0, 1, 1⟩, 1/4, none⟩,
              ⟨⟨0, 0, 1, 1⟩, 3/4, none⟩, ⟨⟨0, 0, 1, 1⟩, 1/2, none⟩]).drop
              (2:Int).toNat,
            b.score ≤ a.score)) :=
  ⟨by norm_num,
    per_concept_truncation ⟨2, true, true, false, false, 3, true⟩ (by norm_num) 7 1
      [⟨⟨0, 0, 1, 1⟩, 1/4, none⟩, ⟨⟨0, 0, 1, 1⟩, 3/4, none⟩,
        ⟨⟨0, 0, 1, 1⟩, 1/2, none⟩]⟩

/-- C9: when `output_controls.return_boxes` is off, every real detection is
still persisted with its true score, its mask raster is written exactly when
masks are requested and the detection carries one, but the stored bbox is the
zero rectangle `[0, 0, 0, 0]`; the same number of rows is written as with
boxes on. -/
theorem return_boxes_false_zero_bbox (rm : Bool) (iid cid : Nat)
    (det : Detection) (m : Int) (dm de dim : Bool) (dc : Int)
    (dets : List Detection) :
    (region_of_detection false rm iid cid det).bbox = [0, 0, 0, 0] ∧
    (region_of_detection false rm iid cid det).score = det.score ∧
    (region_of_detection false rm iid cid det).mask_written =
      (rm && det.mask.isSome) ∧
    (concept_regions ⟨m, false, rm, dm, de, dc, dim⟩ iid (cid, some dets)).length =
      (concept_regions ⟨m, true, rm, dm, de, dc, dim⟩ iid (cid, some dets)).length := by
  refine ⟨rfl, rfl, rfl, ?_⟩
  simp [concept_regions]

/-- C10: an explicit `max_detections_per_image = 0` is falsy in Python, so
truncation is skipped and every detection the dispatcher returned is kept
(sorted; a permutation of the input), while the defaults 20 (safe mode) and
100 apply only when the parameter is absent. -/
theorem zero_cap_keeps_all (dets : List Detection) :
    resolve_max_detections true none = 20 ∧
    resolve_max_detections false none = 100 ∧
    (∀ s : Bool, resolve_max_detections s (some 0) = 0) ∧
    truncate_detections 0 dets = List.insertionSort score_ge dets ∧
    List.Perm (truncate_detections 0 dets) dets := by
  refine ⟨rfl, rfl, fun s => rfl, ?_, ?_⟩
  · simp [truncate_detections]
  · simpa [truncate_detections] using List.perm_insertionSort score_ge dets

theorem last_ok_cursor_nil (init : Option Nat) : last_ok_cursor init [] = init :=
  rfl

theorem last_ok_cursor_cons (init : Option Nat) (img : SrcImage)
    (rest : List SrcImage) :
    last_ok_cursor init (img :: rest) =
      last_ok_cursor (if img.load_ok then some (img.id + 1) else init) rest := by
  by_cases h : img.load_ok
  · cases hfr : rest.filter (fun i => i.load_ok) with
    | nil => simp [last_ok_cursor, List.filter_cons, h, hfr]
    | cons b t =>
        have hx : (b :: t).getLast? = some ((b :: t).getLast (by simp)) :=
          List.getLast?_eq_getLast _ (by simp)
        simp [last_ok_cursor, List.filter_cons, h, hfr, hx]
  · simp [last_ok_cursor, List.filter_cons, h]

theorem last_ok_cursor_of_getLast?_none {init : Option Nat} {imgs : List SrcImage}
    (h : (imgs.filter (fun i => i.load_ok)).getLast? = none) :
    last_ok_cursor init imgs = init := by
  unfold last_ok_cursor
  rw [h]

theorem last_ok_cursor_of_getLast?_some {init : Option Nat} {imgs : List SrcImage}
    {i : SrcImage} (h : (imgs.filter (fun j => j.load_ok)).getLast? = some i) :
    last_ok_cursor init imgs = some (i.id + 1) := by
  unfold last_ok_cursor
  rw [h]

theorem last_ok_cursor_append (l1 l2 : List SrcImage) :
    ∀ init, last_ok_cursor init (l1 ++ l2) =
      last_ok_cursor (last_ok_cursor init l1) l2 := by
  induction l1 with
  | nil => intro init; rfl
  | cons a t ih =>
      intro init
      rw [List.cons_append, last_ok_cursor_cons, ih, last_ok_cursor_cons]

theorem mem_of_getLast?_eq {α : Type} {l : List α} {x : α}
    (h : l.getLast? = some x) : x ∈ l := by
  obtain ⟨hne, hx⟩ := List.mem_getLast?_eq_getLast (Option.mem_def.mpr h)
  rw [hx]
  exact List.getLast_mem hne

theorem foldl_step_cursor (p : JobParams) :
    ∀ (imgs : List SrcImage) (st : JobState),
      (imgs.foldl (step_image p) st).cursor_image_id =
        last_ok_cursor st.cursor_image_id imgs := by
  intro imgs
  induction imgs with
  | nil => intro st; rfl
  | cons img rest ih =>
      intro st
      rw [List.foldl_cons, ih, last_ok_cursor_cons]
      congr 1
      by_cases h : img.load_ok <;> simp [step_image, h]

theorem foldl_step_processed (p : JobParams) :
    ∀ (imgs : List SrcImage) (st : JobState),
      (imgs.foldl (step_image p) st).processed_images =
        st.processed_images + (imgs.filter (fun i => i.load_ok)).length := by
  intro imgs
  induction imgs with
  | nil => intro st; rfl
  | cons img rest ih =>
      intro st
      rw [List.foldl_cons, ih]
      by_cases h : img.load_ok <;>
        simp [step_image, h, List.filter_cons] <;> omega

theorem concept_regions_image_id (p : JobParams) (i : Nat)
    (cr : Nat × Option (List Detection)) :
    ∀ r ∈ concept_regions p i cr, r.image_id = i := by
  rcases cr with ⟨cid, dets?⟩
  cases dets? with
  | none => simp [concept_regions]
  | some dets =>
      intro r hr
      simp only [concept_regions, List.mem_map] at hr
      obtain ⟨d, _, rfl⟩ := hr
      rfl

theorem demo_regions_image_id (p : JobParams) (img : SrcImage) :
    ∀ r ∈ demo_regions p img, r.image_id = img.id := by
  intro r hr
  simp only [demo_regions, List.mem_map] at hr
  obtain ⟨b, _, rfl⟩ := hr
  rfl

theorem process_image_image_id (p : JobParams) (img : SrcImage) :
    ∀ r ∈ process_image p img, r.image_id = img.id := by
  intro r hr
  have hreal : ∀ s ∈ (img.concept_results.map (concept_regions p img.id)).flatten,
      s.image_id = img.id := by
    intro s hs
    obtain ⟨l, hl, hsl⟩ := List.mem_flatten.mp hs
    obtain ⟨cr, _, rfl⟩ := List.mem_map.mp hl
    exact concept_regions_image_id p img.id cr s hsl
  simp only [process_image] at hr
  split at hr
  · rcases List.mem_append.mp hr with h | h
    · exact hreal r h
    · exact demo_regions_image_id p img r h
  · exact hreal r hr

theorem foldl_step_regions (p : JobParams) :
    ∀ (imgs : List SrcImage) (st : JobState),
      ∀ r ∈ (imgs.foldl (step_image p) st).regions,
        r ∈ st.regions ∨ ∃ img ∈ imgs, img.load_ok ∧ r.image_id = img.id := by
  intro imgs
  induction imgs with
  | nil => intro st r hr; exact Or.inl hr
  | cons img rest ih =>
      intro st r hr
      rw [List.foldl_cons] at hr
      rcases ih (step_image p st img) r hr with h | ⟨i, hi, hok, hid⟩
      · by_cases hl : img.load_ok
        · simp only [step_image, hl, if_pos] at h
          rcases List.mem_append.mp h with h | h
          · exact Or.inl (List.mem_of_mem_filter h)
          · exact Or.inr ⟨img, List.mem_cons_self img rest, hl,
              process_image_image_id p img r h⟩
        · simp only [step_image, hl] at h
          rw [if_neg (by simp [hl])] at h
          exact Or.inl (List.mem_of_mem_filter h)
      · exact Or.inr ⟨i, List.mem_cons_of_mem img hi, hok, hid⟩

/-- When the token is first observed set at iteration `n`, with images still
ahead, the run commits exactly the first `n` iterations, then stamps the job
`cancelled`. -/
theorem run_images_cancelled (p : JobParams) (cancelled : Nat → Bool) :
    ∀ (imgs : List SrcImage) (k : Nat) (st : JobState) (n : Nat),
      (∀ j, j < n → cancelled (k + j) = false) →
      cancelled (k + n) = true →
      n < imgs.length →
      run_images p cancelled imgs k st =
        { (imgs.take n).foldl (step_image p) st with status := "cancelled" } := by
  intro imgs
  induction imgs with
  | nil => intro k st n _ _ h; simp at h
  | cons img rest ih =>
      intro k st n hlt hn hlen
      cases n with
      | zero =>
          rw [Nat.add_zero] at hn
          simp [run_images, hn]
      | succ m =>
          have h0 : cancelled k = false := by simpa using hlt 0 (Nat.succ_pos m)
          rw [List.take_succ_cons, List.foldl_cons]
          simp only [run_images, h0, Bool.false_eq_true, if_false]
          refine ih (k + 1) (step_image p st img) m (fun j hj => ?_) ?_ ?_
          · have := hlt (j + 1) (by omega)
            simpa [Nat.add_assoc, Nat.add_comm 1 j] using this
          · simpa [Nat.add_assoc, Nat.add_comm 1 m] using hn
          · simpa using Nat.lt_of_succ_lt_succ (by simpa using hlen)

/-- C4: within one run over ascending-id images at or beyond the initial
cursor, the persisted cursor (1) after each loop iteration equals the id of
the last successfully loaded image plus 1, or stays at the initial value
while no image has loaded; (2) never decreases between iterations; and (3) an
image whose load fails does not by itself advance it.  Cancel/resume restarts
a run with the persisted cursor as the new initial value, so the invariant
extends across a job's lifetime. -/
theorem cursor_monotone_checkpoint (p : JobParams) (st0 : JobState)
    (imgs : List SrcImage)
    (hge : ∀ img ∈ imgs, ∀ c, st0.cursor_image_id = some c → c ≤ img.id)
    (hsorted : List.Pairwise (fun a b => a.id < b.id) imgs) :
    (∀ n, ((imgs.take n).foldl (step_image p) st0).cursor_image_id =
        last_ok_cursor st0.cursor_image_id (imgs.take n)) ∧
    (∀ m n, m ≤ n → ∀ c1 c2,
      ((imgs.take m).foldl (step_image p) st0).cursor_image_id = some c1 →
      ((imgs.take n).foldl (step_image p) st0).cursor_image_id = some c2 →
      c1 ≤ c2) ∧
    (∀ n (hn : n < imgs.length), (imgs.get ⟨n, hn⟩).load_ok = false →
      ((imgs.take (n + 1)).foldl (step_image p) st0).cursor_image_id =
        ((imgs.take n).foldl (step_image p) st0).cursor_image_id) := by
  have hclosed : ∀ n, ((imgs.take n).foldl (step_image p) st0).cursor_image_id =
      last_ok_cursor st0.cursor_image_id (imgs.take n) :=
    fun n => foldl_step_cursor p (imgs.take n) st0
  refine ⟨hclosed, ?_, ?_⟩
  · intro m n hmn c1 c2 hc1 hc2
    rw [hclosed] at hc1 hc2
    have htm : imgs.take m = (imgs.take n).take m := by
      rw [List.take_take, min_eq_left hmn]
    have hsplit : last_ok_cursor st0.cursor_image_id (imgs.take n) =
        last_ok_cursor (last_ok_cursor st0.cursor_image_id ((imgs.take n).take m))
          ((imgs.take n).drop m) := by
      rw [← last_ok_cursor_append, List.take_append_drop]
    rw [hsplit, ← htm, hc1] at hc2
    have hpw : List.Pairwise (fun a b : SrcImage => a.id < b.id) (imgs.take n) :=
      List.Pairwise.sublist (List.take_sublist _ _) hsorted
    have hcross : ∀ a ∈ (imgs.take n).take m, ∀ b ∈ (imgs.take n).drop m,
        a.id < b.id := by
      have h := hpw
      rw [← List.take_append_drop m (imgs.take n)] at h
      exact fun a ha b hb => (List.pairwise_append.mp h).2.2 a ha b hb
    cases hlast : (((imgs.take n).drop m).filter (fun i => i.load_ok)).getLast? with
    | none =>
        rw [last_ok_cursor_of_getLast?_none hlast] at hc2
        exact le_of_eq (Option.some_inj.mp hc2)
    | some i =>
        rw [last_ok_cursor_of_getLast?_some hlast] at hc2
        obtain rfl : i.id + 1 = c2 := Option.some_inj.mp hc2
        have hi2 : i ∈ (imgs.take n).drop m :=
          List.mem_of_mem_filter (mem_of_getLast?_eq hlast)
        cases hfirst : ((imgs.take m).filter (fun i => i.load_ok)).getLast? with
        | none =>
            rw [last_ok_cursor_of_getLast?_none hfirst] at hc1
            have himem : i ∈ imgs :=
              (List.take_sublist n imgs).mem (List.mem_of_mem_drop hi2)
            have hle := hge i himem c1 hc1
            omega
        | some j =>
            rw [last_ok_cursor_of_getLast?_some hfirst] at hc1
            have hc1eq : j.id + 1 = c1 := Option.some_inj.mp hc1
            have hj : j ∈ (imgs.take n).take m := by
              rw [← htm]
              exact List.mem_of_mem_filter (mem_of_getLast?_eq hfirst)
            have hlt := hcross j hj i hi2
            omega
  · intro n hn hnok
    have htake : imgs.take (n + 1) = imgs.take n ++ [imgs.get ⟨n, hn⟩] := by
      rw [List.take_succ]
      congr 1
      rw [List.getElem?_eq_getElem hn]
      rfl
    have hnok2 : imgs[n].load_ok = false := hnok
    rw [hclosed, hclosed, htake, last_ok_cursor_append, last_ok_cursor_cons,
      last_ok_cursor_nil]
    simp [hnok2]

/-- Closed witness for `cursor_monotone_checkpoint`: a two-image run whose
second image fails to load. -/
theorem cursor_monotone_checkpoint_witness :
    ((([⟨3, 10, 10, true, []⟩, ⟨4, 10, 10, false, []⟩] :
        List SrcImage).take 2).foldl
        (step_image ⟨0, true, true, false, false, 3, true⟩)
        ⟨"running", 0, some 2, []⟩).cursor_image_id =
      last_ok_cursor (some 2)
        (([⟨3, 10, 10, true, []⟩, ⟨4, 10, 10, false, []⟩] :
          List SrcImage).take 2) :=
  (cursor_monotone_checkpoint ⟨0, true, true, false, false, 3, true⟩
      ⟨"running", 0, some 2, []⟩
      [⟨3, 10, 10, true, []⟩, ⟨4, 10, 10, false, []⟩]
      (by
        intro img him c hc
        injection hc with hc2
        subst hc2
        cases him with
        | head => decide
        | tail _ h2 =>
            cases h2 with
            | head => decide
            | tail _ h3 => cases h3)
      (by decide)).1 2

/-- C5: cancellation is observed only at the top of an image iteration: if
the token first reads set when the loop reaches iteration `n` (images still
remain), the job ends `cancelled` having committed exactly the first `n`
iterations — processed count and cursor are those of that prefix, and every
persisted region belongs to a successfully loaded image of that prefix; no
write or cursor change happens for the current or any later image. -/
theorem cooperative_cancellation (p : JobParams) (cancelled : Nat → Bool)
    (imgs : List SrcImage) (st0 : JobState) (n : Nat)
    (hbefore : ∀ j, j < n → cancelled j = false)
    (hat : cancelled n = true)
    (hlen : n < imgs.length)
    (hreg : st0.regions = []) :
    (run_images p cancelled imgs 0 st0).status = "cancelled" ∧
    (run_images p cancelled imgs 0 st0).processed_images =
      st0.processed_images + ((imgs.take n).filter (fun i => i.load_ok)).length ∧
    (run_images p cancelled imgs 0 st0).cursor_image_id =
      last_ok_cursor st0.cursor_image_id (imgs.take n) ∧
    (∀ r ∈ (run_images p cancelled imgs 0 st0).regions,
      ∃ img ∈ imgs.take n, img.load_ok ∧ r.image_id = img.id) := by
  have hrun := run_images_cancelled p cancelled imgs 0 st0 n
    (fun j hj => by simpa using hbefore j hj) (by simpa using hat) hlen
  rw [hrun]
  refine ⟨rfl, ?_, ?_, ?_⟩
  · exact foldl_step_processed p (imgs.take n) st0
  · exact foldl_step_cursor p (imgs.take n) st0
  · intro r hr
    rcases foldl_step_regions p (imgs.take n) st0 r hr with h | h
    · rw [hreg] at h
      cases h
    · exact h

/-- Closed witness for `cooperative_cancellation`: token set after one image. -/
theorem cooperative_cancellation_witness :
    (run_images ⟨0, true, true, false, false, 3, true⟩ (fun k => decide (1 ≤ k))
        [⟨3, 10, 10, true, []⟩, ⟨4, 10, 10, true, []⟩] 0
        ⟨"running", 0, none, []⟩).status = "cancelled" :=
  (cooperative_cancellation ⟨0, true, true, false, false, 3, true⟩
      (fun k => decide (1 ≤ k))
      [⟨3, 10, 10, true, []⟩, ⟨4, 10, 10, true, []⟩]
      ⟨"running", 0, none, []⟩ 1
      (by decide) (by decide) (by decide) rfl).1

/-- C7: `build_demo_boxes` is a pure function of `(width, height, count)`, so
it is deterministic; for positive dimensions and `1 ≤ N ≤ 3` it emits exactly
`N` boxes (a single row of `N` columns), each lying entirely inside
`[0, width] × [0, height]` with positive extent, and no two boxes overlap. -/
theorem demo_boxes_disjoint_in_bounds (w h n : Int) (hw : 0 < w) (hh : 0 < h)
    (hn1 : 1 ≤ n) (hn3 : n ≤ 3) :
    (build_demo_boxes w h n).length = n.toNat ∧
    (∀ b ∈ build_demo_boxes w h n,
      0 ≤ b.x0 ∧ b.x0 < b.x1 ∧ b.x1 ≤ (w : ℚ) ∧
      0 ≤ b.y0 ∧ b.y0 < b.y1 ∧ b.y1 ≤ (h : ℚ)) ∧
    List.Pairwise (fun a b => ¬ boxes_overlap a b) (build_demo_boxes w h n) := by
  have hwq : (0:ℚ) < (w:ℚ) := by exact_mod_cast hw
  have hhq : (0:ℚ) < (h:ℚ) := by exact_mod_cast hh
  have hn : n = 1 ∨ n = 2 ∨ n = 3 := by omega
  rcases hn with rfl | rfl | rfl <;>
    (rw [build_demo_boxes, if_neg (by push_neg; exact ⟨by norm_num, hw, hh⟩)]
     first
       | rw [show ((1:Int)).toNat = 1 from rfl]
       | rw [show ((2:Int)).toNat = 2 from rfl]
       | rw [show ((3:Int)).toNat = 3 from rfl]
     simp only [List.range_succ, List.range_zero,
       List.nil_append, List.map_append, List.map_nil, List.map_cons,
       List.cons_append, List.singleton_append]
     norm_num
     repeat' apply And.intro
     all_goals first
       | linarith
       | (intro hov
          simp only [boxes_overlap] at hov
          obtain ⟨h1, _⟩ := hov
          simp only [max_lt_iff, lt_min_iff] at h1
          obtain ⟨⟨_, _⟩, hkey, _⟩ := h1
          linarith))

/-- Closed witness for `demo_boxes_disjoint_in_bounds` on a 100×50 image. -/
theorem demo_boxes_disjoint_in_bounds_witness :
    (build_demo_boxes 100 50 3).length = (3:Int).toNat :=
  (demo_boxes_disjoint_in_bounds 100 50 3 (by norm_num) (by norm_num)
    (by norm_num) (by norm_num)).1

/-- C6 counterexample: an `AUTO_MASK` call at threshold 0.5 > 0.3 whose
result set is empty is NOT retried at 0.3: it returns the empty set with
`used_threshold = 0.5`, although the same call at threshold 0.3 yields a
detection.  The one-shot relaxation exists only in the PCS runners. -/
theorem auto_mask_no_fallback_counterexample :
    (1/2 : ℚ) > 3/10 ∧
    (run_auto_mask [⟨2/5, some (5, ⟨0, 0, 1, 1⟩)⟩] (1/2) 0).1 = [] ∧
    (run_auto_mask [⟨2/5, some (5, ⟨0, 0, 1, 1⟩)⟩] (1/2) 0).2.used_threshold
      = 1/2 ∧
    (run_auto_mask [⟨2/5, some (5, ⟨0, 0, 1, 1⟩)⟩] (3/10) 0).1 ≠ [] := by
  refine ⟨by norm_num, ?_, rfl, ?_⟩ <;>
    norm_num [run_auto_mask, List.filterMap]

/-- C6 amended: the one-shot relaxation to the fixed threshold 0.3 is a PCS
behaviour: `run_pcs_text`, `run_pcs_box` and `run_pcs_combined` retry the
identical call exactly once at 0.3 when the requested-threshold result set is
empty and the request exceeds 0.3 (and never otherwise), with
`used_threshold` always the threshold that produced the returned set;
`run_auto_mask` never retries and always reports the requested threshold. -/
theorem one_shot_fallback_amended (post : ℚ → RawResult) (t : ℚ)
    (minA : Nat) (items : List AutoItem) :
    run_pcs_box post t minA = run_pcs_text post t minA ∧
    run_pcs_combined post t minA = run_pcs_text post t minA ∧
    (regions_from_results (post t) t minA = [] ∧ t > 3/10 →
      run_pcs_text post t minA =
        (regions_from_results (post (3/10)) (3/10) minA,
          ⟨3/10, (post (3/10)).boxes.length,
            (regions_from_results (post (3/10)) (3/10) minA).length⟩)) ∧
    (¬ (regions_from_results (post t) t minA = [] ∧ t > 3/10) →
      run_pcs_text post t minA =
        (regions_from_results (post t) t minA,
          ⟨t, (post t).boxes.length,
            (regions_from_results (post t) t minA).length⟩)) ∧
    (run_auto_mask items t minA).2.used_threshold = t := by
  refine ⟨rfl, rfl, fun hcond => ?_, fun hcond => ?_, rfl⟩
  · simp only [run_pcs_text]
    rw [if_pos hcond]
  · simp only [run_pcs_text]
    rw [if_neg hcond]

/-- Closed witness for `one_shot_fallback_amended`: a PCS call that comes
back empty at threshold 0.5 and is retried at 0.3. -/
theorem one_shot_fallback_amended_witness :
    run_pcs_text (fun _ => ⟨[⟨0, 0, 1, 1⟩], [2/5], none⟩) (1/2) 0 =
      (regions_from_results
          ((fun _ => (⟨[⟨0, 0, 1, 1⟩], [2/5], none⟩ : RawResult)) ((3:ℚ)/10))
          (3/10) 0,
        ⟨3/10,
          ((fun _ => (⟨[⟨0, 0, 1, 1⟩], [2/5], none⟩ : RawResult)) ((3:ℚ)/10)).boxes.length,
          (regions_from_results
            ((fun _ => (⟨[⟨0, 0, 1, 1⟩], [2/5], none⟩ : RawResult)) ((3:ℚ)/10))
            (3/10) 0).length⟩) :=
  (one_shot_fallback_amended (fun _ => ⟨[⟨0, 0, 1, 1⟩], [2/5], none⟩)
    (1/2) 0 []).2.2.1
    (by
      refine ⟨?_, by norm_num⟩
      norm_num [regions_from_results, regions_from_results_aux])

/-- C8: job creation fails with HTTP 400 whenever the requested dataset has
zero indexed images, and in that case no success state exists: the rejection
happens before any `Job` row is built or added, so the jobs table is left
unchanged by this error. -/
theorem empty_dataset_rejected (db : Db) (dataset_id : Nat)
    (concept_ids : List Nat)
    (hempty : (db.images.filter (fun i => i.dataset_id == dataset_id)).length
      = 0) :
    create_job db dataset_id concept_ids =
      Except.error (400, "Dataset has no images or does not exist") ∧
    (∀ db2 job, create_job db dataset_id concept_ids ≠ Except.ok (db2, job)) := by
  constructor
  · simp [create_job, hempty]
  · intro db2 job
    simp [create_job, hempty]

/-- Closed witness for `empty_dataset_rejected`: an empty images table. -/
theorem empty_dataset_rejected_witness :
    create_job ⟨[], [1], []⟩ 7 [1] =
      Except.error (400, "Dataset has no images or does not exist") :=
  (empty_dataset_rejected ⟨[], [1], []⟩ 7 [1] (by decide)).1

end Spec2Proof
